import Mathlib

/-!
Verification of the T8Client measurement-resolution and spectral-analysis
pipeline (`src/t8_client/api.py`) against its natural-language specification.

The Python code is shallowly embedded:

* numpy float arrays become `List ℝ` (ideal real arithmetic; `np.ceil (np.log2 n)`
  is embedded as `Nat.clog 2 n`, which is the exact value of `⌈log2 n⌉`);
* frequency axes (`np.fft.fftfreq`) are embedded over `ℚ`, since the frequency
  values are exact rationals `k·fs/n` and only order comparisons are performed
  on them;
* Python strings become `List ℤ` of character codes (45 = `-`, 47 = `/`,
  48 = `0`, 58 = `:`, 84 = `T`);
* fallible operations return `Option`; a raised, uncaught Python exception is a
  dedicated error value.
-/

namespace T8Client

/-! ## Character-code string utilities

Python string idioms used by the client: `s.rstrip("/")`,
`s.split("/")`, `s[-1]`. -/

/-- Embeds `s.rstrip("/")` (for a single strip character `sep`): remove every
trailing occurrence of `sep`. -/
def rstrip (sep : ℤ) (s : List ℤ) : List ℤ :=
  ((s.reverse).dropWhile (fun c => c = sep)).reverse

/-- Embeds `s.split(sep)` for a one-character separator: Python's `str.split`
always returns at least one (possibly empty) piece. -/
def splitSep (sep : ℤ) : List ℤ → List (List ℤ)
  | [] => [[]]
  | c :: cs =>
    let r := splitSep sep cs
    if c = sep then [] :: r
    else
      match r with
      | h :: t => (c :: h) :: t
      | [] => [[c]]

/-- Embeds the idiom `url.rstrip("/").split("/")[-1]` used throughout
`api.py` to extract the last path segment of a URL. -/
def lastSegment (url : List ℤ) : List ℤ :=
  (splitSep 47 (rstrip 47 url)).getLastD []

/-! ## Time conversion (`epoch_to_iso`, `iso_to_epoch`)

The Python code calls `datetime.fromtimestamp(·, tz=UTC)`,
`datetime.fromisoformat` and `datetime.timestamp()`.  These library calls are
modelled by the proleptic-Gregorian calendar bijection between day numbers
(days since 1970-01-01) and `(year, month, day)` triples, which is the
mathematical function the `datetime` module computes.  Strings are lists of
character codes. -/

/-- Proleptic-Gregorian date `(year, month, day)` of a day number (days since
1970-01-01), computed by era / century / 4-year-group / year decomposition.
Models the date part of `datetime.fromtimestamp(·, tz=UTC)`. -/
def civilFromDays (z : ℤ) : ℤ × ℤ × ℤ :=
  let days := z + 719468
  let era := days / 146097
  let doe := days % 146097
  let c := if 4 ≤ doe / 36524 then 3 else doe / 36524
  let r := doe - 36524 * c
  let q := r / 1461
  let r2 := r % 1461
  let t := if 4 ≤ r2 / 365 then 3 else r2 / 365
  let doy := r2 - 365 * t
  let yoe := 100 * c + 4 * q + t
  let mp := (5 * doy + 2) / 153
  let d := doy - (153 * mp + 2) / 5 + 1
  let m := if mp < 10 then mp + 3 else mp - 9
  let y := era * 400 + yoe
  (if m ≤ 2 then y + 1 else y, m, d)

/-- Day number (days since 1970-01-01) of a proleptic-Gregorian date.  Models
the date part of `datetime.timestamp()` on a UTC-aware datetime. -/
def daysFromCivil (y m d : ℤ) : ℤ :=
  let yy := if m ≤ 2 then y - 1 else y
  let era := yy / 400
  let yoe := yy - era * 400
  let doy := (153 * (if 2 < m then m - 3 else m + 9) + 2) / 5 + d - 1
  let doe := yoe * 365 + yoe / 4 - yoe / 100 + doy
  era * 146097 + doe - 719468

/-- Number of days of month `m` of proleptic-Gregorian year `y` (the
validation the `datetime` constructor performs). -/
def daysInMonth (y m : ℤ) : ℤ :=
  if m = 2 then (if y % 4 = 0 ∧ (y % 100 ≠ 0 ∨ y % 400 = 0) then 29 else 28)
  else if m = 4 ∨ m = 6 ∨ m = 9 ∨ m = 11 then 30 else 31

/-- Decimal rendering of a year in `strftime("%Y")` on Linux (glibc): the
decimal digits with no zero padding.  Years of the `datetime` range are at
most four digits. -/
def renderYear (y : ℤ) : List ℤ :=
  if y < 10 then [48 + y]
  else if y < 100 then [48 + y / 10, 48 + y % 10]
  else if y < 1000 then [48 + y / 100, 48 + y / 10 % 10, 48 + y % 10]
  else [48 + y / 1000, 48 + y / 100 % 10, 48 + y / 10 % 10, 48 + y % 10]

/-- Two-digit zero-padded rendering (`%m`, `%d`, `%H`, `%M`, `%S`). -/
def pad2 (n : ℤ) : List ℤ := [48 + n / 10, 48 + n % 10]

/-- The `YYYY-MM-DDTHH:MM:SS` layout of `strftime("%Y-%m-%dT%H:%M:%S")`. -/
def renderIsoFields (y mo dy hh mi ss : ℤ) : List ℤ :=
  renderYear y ++ [45] ++ pad2 mo ++ [45] ++ pad2 dy ++ [84] ++
    pad2 hh ++ [58] ++ pad2 mi ++ [58] ++ pad2 ss

/-- Models the body of `epoch_to_iso` (`api.py` lines 115-131) after the
`int()` conversion: `datetime.fromtimestamp(epoch_int, tz=UTC)` followed by
`strftime("%Y-%m-%dT%H:%M:%S")`.  Outside the representable years 1-9999 the
library raises `ValueError`/`OverflowError`; `epoch_to_iso` catches
`ValueError` and returns the empty string, modelled as `[]`. -/
def epochToIsoOfInt (e : ℤ) : List ℤ :=
  if e < -62135596800 ∨ 253402300799 < e then []
  else
    let z := e / 86400
    let sod := e % 86400
    let ymd := civilFromDays z
    renderIsoFields ymd.1 ymd.2.1 ymd.2.2 (sod / 3600) (sod % 3600 / 60) (sod % 60)

/-- Models `int(datetime.fromisoformat(s).replace(tzinfo=UTC).timestamp())`
(`api.py` lines 144-146) on the canonical 19-character
`YYYY-MM-DDTHH:MM:SS` layout that `epoch_to_iso` produces; any other shape is
a parse failure (`none`).  (`fromisoformat` also accepts other ISO variants,
none of which are produced or consumed by the properties proved here.)
Field validation mirrors the `datetime` constructor: year ≥ 1, month 1-12,
day within the month, hour ≤ 23, minute and second ≤ 59. -/
def isoToEpochInt (s : List ℤ) : Option ℤ :=
  match s with
  | [y1, y2, y3, y4, a1, mo1, mo2, a2, d1, d2, t1, h1, h2, b1, mi1, mi2, b2, s1, s2] =>
    if 48 ≤ y1 ∧ y1 ≤ 57 ∧ 48 ≤ y2 ∧ y2 ≤ 57 ∧ 48 ≤ y3 ∧ y3 ≤ 57 ∧ 48 ≤ y4 ∧ y4 ≤ 57 ∧
        48 ≤ mo1 ∧ mo1 ≤ 57 ∧ 48 ≤ mo2 ∧ mo2 ≤ 57 ∧ 48 ≤ d1 ∧ d1 ≤ 57 ∧ 48 ≤ d2 ∧ d2 ≤ 57 ∧
        48 ≤ h1 ∧ h1 ≤ 57 ∧ 48 ≤ h2 ∧ h2 ≤ 57 ∧ 48 ≤ mi1 ∧ mi1 ≤ 57 ∧ 48 ≤ mi2 ∧ mi2 ≤ 57 ∧
        48 ≤ s1 ∧ s1 ≤ 57 ∧ 48 ≤ s2 ∧ s2 ≤ 57 ∧
        a1 = 45 ∧ a2 = 45 ∧ t1 = 84 ∧ b1 = 58 ∧ b2 = 58 then
      let y := 1000 * (y1 - 48) + 100 * (y2 - 48) + 10 * (y3 - 48) + (y4 - 48)
      let mo := 10 * (mo1 - 48) + (mo2 - 48)
      let dy := 10 * (d1 - 48) + (d2 - 48)
      let hh := 10 * (h1 - 48) + (h2 - 48)
      let mi := 10 * (mi1 - 48) + (mi2 - 48)
      let ss := 10 * (s1 - 48) + (s2 - 48)
      if 1 ≤ y ∧ 1 ≤ mo ∧ mo ≤ 12 ∧ 1 ≤ dy ∧ dy ≤ daysInMonth y mo ∧
          hh ≤ 23 ∧ mi ≤ 59 ∧ ss ≤ 59 then
        some (daysFromCivil y mo dy * 86400 + hh * 3600 + mi * 60 + ss)
      else none
    else none
  | _ => none

/-- Models Python `int(s)` on a decimal string: an optional sign followed by
at least one digit (the whitespace/underscore tolerance of `int()` is never
exercised by timestamps).  Failure (`ValueError`) is `none`. -/
def digitsVal (s : List ℤ) : Option ℤ :=
  if s ≠ [] ∧ ∀ c ∈ s, 48 ≤ c ∧ c ≤ 57 then
    some (s.foldl (fun acc c => 10 * acc + (c - 48)) 0)
  else none

/-- Sign handling of `int(s)`. -/
def parseIntStr (s : List ℤ) : Option ℤ :=
  match s with
  | 45 :: rest => (digitsVal rest).map Neg.neg
  | 43 :: rest => digitsVal rest
  | _ => digitsVal s

/-- Models `epoch_to_iso` (`api.py` lines 115-131) end to end:
`int(epoch_str)` followed by `fromtimestamp`/`strftime`; any `ValueError`
(unparsable string, out-of-range year) is caught and the empty string is
returned. -/
def epoch_to_iso (epoch_str : List ℤ) : List ℤ :=
  match parseIntStr epoch_str with
  | none => []
  | some e => epochToIsoOfInt e

/-- Decimal digits of a natural number (fuel-based structural recursion; the
fuel `n` always suffices since `n / 10 < n`). -/
def renderNatGo : ℕ → ℕ → List ℤ
  | 0, _ => []
  | _ + 1, 0 => []
  | fuel + 1, n + 1 =>
    renderNatGo fuel ((n + 1) / 10) ++ [(48 : ℤ) + (((n + 1) % 10 : ℕ) : ℤ)]

/-- Decimal rendering of a natural number (Python `str` of a nonnegative
integer). -/
def renderNat (n : ℕ) : List ℤ := if n = 0 then [48] else renderNatGo n n

/-- Decimal rendering of an integer (Python `str(int)`). -/
def renderInt (e : ℤ) : List ℤ :=
  if e < 0 then 45 :: renderNat (-e).toNat else renderNat e.toNat

/-- Models `iso_to_epoch` (`api.py` lines 133-148): parse the ISO string,
convert to epoch seconds, render the result as a decimal string
(`str(int(...))`); the empty string on parse failure. -/
def iso_to_epoch (iso_str : List ℤ) : List ℤ :=
  match isoToEpochInt iso_str with
  | none => []
  | some e => renderInt e

/-! ## Measurement catalog and record fetch
(`list_waves`, `list_spectra`, `get_wave`, `get_spectrum`) -/

/-- The item loop of `list_waves` (`api.py` lines 92-113) and of the identical
`list_spectra` (lines 293-314): each listing item contributes the last path
segment of its self URL as a timestamp, unless the URL is missing or empty
(`if url_self:`) or the segment is the sentinel `"0"`; `epoch_to_iso` of the
timestamp joins the parallel ISO list.  Items are processed in the service's
order. -/
def extractTimestamps : List (Option (List ℤ)) → List (List ℤ) × List (List ℤ)
  | [] => ([], [])
  | item :: rest =>
    let r := extractTimestamps rest
    match item with
    | none => r
    | some u =>
      if u = [] then r
      else if lastSegment u = [48] then r
      else (lastSegment u :: r.1, epoch_to_iso (lastSegment u) :: r.2)

/-- Models `list_waves` / `list_spectra` as a function of the listing
response: a non-200 status yields `([], [])` (soft failure, `api.py` lines
86-88); a 200 response is processed by `extractTimestamps`. -/
def list_waves (status : ℕ) (items : List (Option (List ℤ))) :
    List (List ℤ) × List (List ℤ) :=
  if status ≠ 200 then ([], []) else extractTimestamps items

/-- The timestamp-resolution prefix of `get_wave` / `get_spectrum`
(`api.py` lines 171-177): a missing — or empty, since `if not timestamp:`
is also true for `""` — specifier becomes the sentinel `"0"`; a specifier
containing `"T"` or `"-"` is converted via `iso_to_epoch`; anything else is
used verbatim. -/
def resolveTimestamp (timestamp : Option (List ℤ)) : List ℤ :=
  let t := match timestamp with
    | none => [48]
    | some s => if s = [] then [48] else s
  if 84 ∈ t ∨ 45 ∈ t then iso_to_epoch t else t

/-- The observable outcome of `get_wave` / `get_spectrum`: `httpError` when
the fetch response is not 200 (the Python function prints and returns
`None`); `indexError` when the sentinel path re-derives the real timestamp
from an empty listing (`urls[-1]` raises an uncaught `IndexError`);
`ok fetchTs label` carries the timestamp used in the fetch URL and the
timestamp label used for persistence. -/
inductive FetchOutcome where
  | httpError : FetchOutcome
  | indexError : FetchOutcome
  | ok : List ℤ → List ℤ → FetchOutcome
  deriving DecidableEq

/-- Models `get_wave` (`api.py` lines 151-210) and the identical
`get_spectrum` (lines 316-375), abstracting the remote service as the fetch
status per requested timestamp plus the listing endpoint's status and items:
resolve the timestamp specifier, fetch at it, and on success re-derive the
persistence label — for the sentinel `"0"`, from the last entry of a second
listing call (`urls[-1].rstrip("/").split("/")[-1]`). -/
def getWave (timestamp : Option (List ℤ)) (fetchStatus : List ℤ → ℕ)
    (listStatus : ℕ) (items : List (Option (List ℤ))) : FetchOutcome :=
  let ts := resolveTimestamp timestamp
  if fetchStatus ts ≠ 200 then .httpError
  else if ts = [48] then
    match (list_waves listStatus items).1.getLast? with
    | none => .indexError
    | some u => .ok ts (lastSegment u)
  else .ok ts ts

/-- The specification's description of timestamp-specifier resolution for
claim C7 (amended: the empty string also resolves to the sentinel). -/
def resolveSpecDescription (spec : Option (List ℤ)) : List ℤ :=
  match spec with
  | none => [48]
  | some s =>
    if s = [] then [48]
    else if 84 ∈ s ∨ 45 ∈ s then iso_to_epoch s else s

/-! ## Spectrum engine
(`zero_padding`, `preprocess_waveform`, `compute_spectrum`)

Real-valued signals are `List ℝ`.  `np.ceil(np.log2 n)` is embedded as
`Nat.clog 2 n` (the exact ceiling of the base-2 logarithm).  For `n = 0`,
`np.log2 0` is `-inf` and `2 ** np.ceil(np.log2 0).astype(int)` raises a
`ValueError` (negative integer power) in numpy, so the embedding returns
`none` for the empty waveform. -/

/-- Arithmetic mean, embedding `np.mean` (the mean of an empty array is NaN in
numpy; here division by zero yields `0`, a value never used by any theorem on
the empty case since the pipeline fails earlier, in `zero_padding`). -/
noncomputable def mean (xs : List ℝ) : ℝ := xs.sum / xs.length

/-- Embeds `np.hanning n` at index `k`: `np.hanning 1 = [1.0]`, and for
`n ≥ 2` the window is `0.5 - 0.5 cos (2πk/(n-1))`. -/
noncomputable def hann (n : ℕ) (k : ℕ) : ℝ :=
  if n = 1 then 1 else 1 / 2 - 1 / 2 * Real.cos (2 * Real.pi * k / ((n : ℝ) - 1))

/-- Embeds `zero_padding` (`api.py` lines 427-433): pad on the right with
zeros to the next power of two.  Fails (`none`) on the empty waveform, where
the Python code raises (`2 ** np.ceil(np.log2 0).astype(int)`). -/
noncomputable def zero_padding (waveform : List ℝ) : Option (List ℝ) :=
  if waveform.length = 0 then none
  else some (waveform ++
    List.replicate (2 ^ Nat.clog 2 waveform.length - waveform.length) 0)

/-- Embeds `preprocess_waveform` (`api.py` lines 435-440): elementwise Hann
window of the input length, then `zero_padding`. -/
noncomputable def preprocess_waveform (waveform : List ℝ) : Option (List ℝ) :=
  zero_padding ((List.range waveform.length).map
    (fun k => waveform.getD k 0 * hann waveform.length k))

/-- The complex DFT, embedding `numpy.fft.fft`:
`X k = ∑ j, x j · exp (-2πi·j·k/n)`. -/
noncomputable def dft (x : List ℂ) : List ℂ :=
  (List.range x.length).map fun (k : ℕ) =>
    ∑ j ∈ Finset.range x.length,
      x.getD j 0 * Complex.exp
        (-(2 * (Real.pi : ℂ) * Complex.I * (j : ℂ) * (k : ℂ)) / (x.length : ℂ))

/-- `signal.astype(float) * factor` (`api.py` lines 453-457). -/
noncomputable def scaled_signal (samples : List ℤ) (factor : ℝ) : List ℝ :=
  (samples.map fun (s : ℤ) => (s : ℝ)).map fun x => x * factor

/-- `signal_proc -= np.mean(signal_proc)` (`api.py` line 458). -/
noncomputable def signal_proc (samples : List ℤ) (factor : ℝ) : List ℝ :=
  (scaled_signal samples factor).map fun x => x - mean (scaled_signal samples factor)

/-- `spectrum = fft(signal_preprocessed) * 2 * np.sqrt(2)` (`api.py` line 467). -/
noncomputable def scaled_spectrum (pre : List ℝ) : List ℂ :=
  (dft (pre.map Complex.ofReal)).map fun z => z * ((2 * Real.sqrt 2 : ℝ) : ℂ)

/-- Embeds the magnitude part of `compute_spectrum` (`api.py` lines 452-468),
starting from the decoded int16 sample array: scale by `factor`, subtract the
mean, window + zero-pad (`preprocess_waveform`), FFT, scale by `2·√2`, take
magnitudes (`np.abs(spectrum) / len(spectrum)`). -/
noncomputable def compute_spectrum_magnitudes (samples : List ℤ) (factor : ℝ) :
    Option (List ℝ) :=
  match preprocess_waveform (signal_proc samples factor) with
  | none => none
  | some pre =>
    some ((scaled_spectrum pre).map fun z =>
      Complex.abs z / (scaled_spectrum pre).length)

/-- Two's-complement interpretation of a 16-bit little-endian value. -/
def toSigned16 (v : ℕ) : ℤ := if v < 32768 then (v : ℤ) else (v : ℤ) - 65536

/-- Consecutive little-endian byte pairs as signed 16-bit integers. -/
def int16OfBytes : List ℕ → List ℤ
  | lo :: hi :: rest => toSigned16 (lo + 256 * hi) :: int16OfBytes rest
  | _ => []

/-- Embeds `np.frombuffer(raw, dtype=np.int16)` (`api.py` line 453) on the
decompressed byte buffer: numpy raises `ValueError: buffer size must be a
multiple of element size` when the length is odd, embedded as `none`. -/
def frombufferInt16 (raw : List ℕ) : Option (List ℤ) :=
  if raw.length % 2 = 0 then some (int16OfBytes raw) else none

/-- The decode-then-transform composition inside `compute_spectrum`
(`api.py` lines 452-468), starting from the decompressed byte buffer. -/
noncomputable def compute_spectrum_from_raw (raw : List ℕ) (factor : ℝ) :
    Option (List ℝ) :=
  match frombufferInt16 raw with
  | none => none
  | some samples => compute_spectrum_magnitudes samples factor

/-- The reference pipeline of claim C1, written step by step following the
specification's words (not the code): multiply the samples elementwise by the
factor, subtract the arithmetic mean of the scaled signal, multiply
elementwise by a Hann window of the pre-padding length, zero-pad on the right
to the padded length (smallest power of two ≥ the length), take the complex
DFT, scale by `2·√2`, take elementwise magnitude, divide by the padded
length. -/
noncomputable def specReferencePipeline (samples : List ℤ) (factor : ℝ) : List ℝ :=
  let scaled := samples.map fun (s : ℤ) => (s : ℝ) * factor
  let centered := scaled.map fun x => x - mean scaled
  let n := centered.length
  let windowed := (List.range n).map fun k => centered.getD k 0 * hann n k
  let N := 2 ^ Nat.clog 2 n
  let padded := windowed ++ List.replicate (N - n) 0
  (dft (padded.map Complex.ofReal)).map fun z =>
    Complex.abs (z * ((2 * Real.sqrt 2 : ℝ) : ℂ)) / N

/-- Embeds `np.fft.fftfreq(n, 1/fs)` exactly as numpy computes it: the
concatenation of the non-negative bins `0, 1, ..., (n-1)/2` and the wrapped
negative bins `-(n/2), ..., -1`, all multiplied by `fs/n`.  The bin values are
exact rationals. -/
def fftfreq (n : ℕ) (fs : ℚ) : List ℚ :=
  ((List.range ((n + 1) / 2)).map fun (k : ℕ) => (k : ℚ) * fs / n) ++
  ((List.range (n / 2)).map fun (j : ℕ) => ((j : ℚ) - (n / 2 : ℕ)) * fs / n)

/-- The band mask `(freqs >= fmin) & (freqs <= fmax)` (`api.py` line 472). -/
def inBand (fmin fmax f : ℚ) : Bool := fmin ≤ f && f ≤ fmax

/-- Embeds the (frequency, magnitude) output of `compute_spectrum`
(`api.py` lines 469-474): the frequency axis for the padded length, zipped
with the magnitudes and filtered by the inclusive band mask. -/
noncomputable def compute_spectrum_pairs (samples : List ℤ) (factor : ℝ)
    (fs fmin fmax : ℚ) : Option (List (ℚ × ℝ)) :=
  match compute_spectrum_magnitudes samples factor with
  | none => none
  | some magnitude =>
    some (((fftfreq magnitude.length fs).zip magnitude).filter
      fun p => inBand fmin fmax p.1)

/-! ## Helper lemmas -/

theorem splitSep_ne_nil (sep : ℤ) (s : List ℤ) : splitSep sep s ≠ [] := by
  cases s with
  | nil => simp [splitSep]
  | cons c cs =>
    simp only [splitSep]
    split
    · simp
    · split <;> simp

theorem not_sep_mem_of_mem_splitSep (sep : ℤ) (s : List ℤ) :
    ∀ p ∈ splitSep sep s, sep ∉ p := by
  induction s with
  | nil => intro p hp; simp [splitSep] at hp; simp [hp]
  | cons c cs ih =>
    intro p hp
    simp only [splitSep] at hp
    by_cases hc : c = sep
    · simp only [if_pos hc, List.mem_cons] at hp
      rcases hp with rfl | hp
      · simp
      · exact ih p hp
    · simp only [if_neg hc] at hp
      rcases hr : splitSep sep cs with _ | ⟨h, t⟩
      · exact absurd hr (splitSep_ne_nil sep cs)
      · rw [hr] at hp
        simp only [List.mem_cons] at hp
        rcases hp with rfl | hp
        · intro hmem
          rcases List.mem_cons.mp hmem with rfl | hmem
          · exact hc rfl
          · exact ih h (by rw [hr]; exact List.mem_cons_self h t) hmem
        · exact ih p (by rw [hr]; exact List.mem_cons_of_mem h hp)

theorem splitSep_of_not_mem (sep : ℤ) (s : List ℤ) (h : sep ∉ s) :
    splitSep sep s = [s] := by
  induction s with
  | nil => rfl
  | cons c cs ih =>
    simp only [List.mem_cons, not_or] at h
    simp only [splitSep, ih h.2]
    rw [if_neg (fun hcs => h.1 hcs.symm)]

theorem dropWhile_eq_self_of_not_mem (sep : ℤ) (l : List ℤ) (h : sep ∉ l) :
    l.dropWhile (fun c => c = sep) = l := by
  cases l with
  | nil => rfl
  | cons c cs =>
    simp only [List.mem_cons, not_or] at h
    rw [List.dropWhile_cons_of_neg]
    simp only [decide_eq_true_eq]
    exact fun hcs => h.1 hcs.symm

theorem rstrip_of_not_mem (sep : ℤ) (s : List ℤ) (h : sep ∉ s) :
    rstrip sep s = s := by
  unfold rstrip
  rw [dropWhile_eq_self_of_not_mem sep _ (by simpa using h), List.reverse_reverse]

theorem not_sep_mem_lastSegment (url : List ℤ) : (47 : ℤ) ∉ lastSegment url := by
  unfold lastSegment
  have hne := splitSep_ne_nil 47 (rstrip 47 url)
  have hmem : (splitSep 47 (rstrip 47 url)).getLastD [] ∈ splitSep 47 (rstrip 47 url) := by
    rcases hl : splitSep 47 (rstrip 47 url) with _ | ⟨h, t⟩
    · exact absurd hl hne
    · rw [List.getLastD_eq_getLast?, List.getLast?_eq_getLast (h := by simp)]
      simp only [Option.getD_some]
      exact List.getLast_mem _
  exact not_sep_mem_of_mem_splitSep 47 (rstrip 47 url) _ hmem

theorem lastSegment_of_not_mem (t : List ℤ) (h : (47 : ℤ) ∉ t) :
    lastSegment t = t := by
  unfold lastSegment
  rw [rstrip_of_not_mem 47 t h, splitSep_of_not_mem 47 t h]
  rfl

theorem int16OfBytes_length : ∀ raw : List ℕ,
    (int16OfBytes raw).length = raw.length / 2
  | [] => rfl
  | [x] => by
    have hx : int16OfBytes [x] = [] := rfl
    simp [hx]
  | lo :: hi :: rest => by
    have ih := int16OfBytes_length rest
    simp only [int16OfBytes, List.length_cons, ih]
    omega

theorem getD_replicate {α : Type*} (n k : ℕ) (a d : α) :
    (List.replicate n a).getD k d = if k < n then a else d := by
  rcases lt_or_le k n with hk | hk
  · simp [List.getD_eq_getElem?_getD, List.getElem?_replicate, hk]
  · simp [List.getD_eq_getElem?_getD, List.getElem?_replicate, Nat.not_lt.mpr hk]

theorem dft_replicate_zero (N : ℕ) :
    dft (List.replicate N (0 : ℂ)) = List.replicate N 0 := by
  unfold dft
  simp only [List.length_replicate]
  apply List.ext_getElem?
  intro i
  simp only [List.getElem?_map, List.getElem?_replicate]
  by_cases hi : i < N
  · rw [List.getElem?_range hi, if_pos hi, Option.map_some']
    congr 1
    apply Finset.sum_eq_zero
    intro j _
    rw [getD_replicate]
    simp
  · rw [List.getElem?_eq_none (by simpa using Nat.le_of_not_lt hi), if_neg hi]
    rfl

theorem dft_length (x : List ℂ) : (dft x).length = x.length := by
  simp [dft]

theorem spectrum_pipeline_eq (samples : List ℤ) (factor : ℝ) (h : samples ≠ []) :
    compute_spectrum_magnitudes samples factor =
      some (specReferencePipeline samples factor) := by
  have hn : samples.length ≠ 0 := by simpa using h
  have hle := Nat.le_pow_clog (b := 2) (by norm_num) samples.length
  unfold compute_spectrum_magnitudes specReferencePipeline preprocess_waveform
    zero_padding signal_proc scaled_signal scaled_spectrum
  simp only [List.map_map, List.length_map, List.length_range, List.length_append,
    List.length_replicate, Function.comp_def]
  rw [if_neg hn]
  simp only [dft_length, List.length_map, List.length_append, List.length_replicate,
    List.length_range, Nat.add_sub_cancel' hle]

theorem specReferencePipeline_length (samples : List ℤ) (factor : ℝ) :
    (specReferencePipeline samples factor).length = 2 ^ Nat.clog 2 samples.length := by
  have hle := Nat.le_pow_clog (b := 2) (by norm_num) samples.length
  unfold specReferencePipeline
  simp [dft_length, Nat.add_sub_cancel' hle]

theorem fftfreq_length (n : ℕ) (fs : ℚ) : (fftfreq n fs).length = n := by
  simp [fftfreq]
  omega

theorem map_fst_filter_zip {α β : Type*} (as : List α) (bs : List β) (q : α → Bool)
    (h : as.length ≤ bs.length) :
    (((as.zip bs).filter fun p => q p.1).map Prod.fst) = as.filter q := by
  have h1 : ((as.zip bs).map Prod.fst).filter q =
      ((as.zip bs).filter (q ∘ Prod.fst)).map Prod.fst := List.filter_map Prod.fst _
  rw [List.map_fst_zip as bs h] at h1
  simp only [Function.comp_def] at h1
  exact h1.symm

theorem fftfreq_filter_pairwise (N : ℕ) (fs fmin fmax : ℚ)
    (hN : 0 < N) (hfs : 0 < fs) (hmin : 0 ≤ fmin) :
    ((fftfreq N fs).filter (inBand fmin fmax)).Pairwise (· < ·) := by
  unfold fftfreq
  rw [List.filter_append]
  have hNQ : (0 : ℚ) < (N : ℚ) := by exact_mod_cast hN
  have hB : (((List.range (N / 2)).map fun (j : ℕ) =>
      ((j : ℚ) - (N / 2 : ℕ)) * fs / N).filter (inBand fmin fmax)) = [] := by
    rw [List.filter_eq_nil_iff]
    intro a ha
    simp only [List.mem_map, List.mem_range] at ha
    obtain ⟨j, hj, rfl⟩ := ha
    simp only [inBand, Bool.and_eq_true, decide_eq_true_eq, not_and]
    intro hfm
    exfalso
    have hneg : ((j : ℚ) - (N / 2 : ℕ)) * fs / N < 0 := by
      apply div_neg_of_neg_of_pos _ hNQ
      apply mul_neg_of_neg_of_pos _ hfs
      have : (j : ℚ) < ((N / 2 : ℕ) : ℚ) := by exact_mod_cast hj
      linarith
    linarith
  rw [hB, List.append_nil]
  apply List.Pairwise.filter
  rw [List.pairwise_map]
  apply List.Pairwise.imp ?_ (List.pairwise_lt_range _)
  intro a b hab
  have hq : (a : ℚ) < (b : ℚ) := by exact_mod_cast hab
  have h1 : (a : ℚ) * fs < b * fs := by
    exact mul_lt_mul_of_pos_right hq hfs
  exact div_lt_div_of_pos_right h1 hNQ

theorem chainA (doe c r q r2 t doy yoe : ℤ) (h0 : 0 ≤ doe) (h1 : doe ≤ 146096)
    (hc : c = if 4 ≤ doe / 36524 then 3 else doe / 36524)
    (hr : r = doe - 36524 * c)
    (hq : q = r / 1461) (hr2 : r2 = r % 1461)
    (ht : t = if 4 ≤ r2 / 365 then 3 else r2 / 365)
    (hdoy : doy = r2 - 365 * t) (hyoe : yoe = 100 * c + 4 * q + t) :
    0 ≤ c ∧ c ≤ 3 ∧ 0 ≤ q ∧ q ≤ 24 ∧ 0 ≤ t ∧ t ≤ 3 ∧ 0 ≤ doy ∧ doy ≤ 365 ∧
    0 ≤ yoe ∧ yoe ≤ 399 ∧ 365 * yoe + yoe / 4 - yoe / 100 + doy = doe ∧
    (doy = 365 → t = 3 ∧ (q = 24 → c = 3)) := by
  have hcb : 0 ≤ c ∧ c ≤ 3 ∧ 0 ≤ r ∧ r ≤ 36524 ∧ (r = 36524 → c = 3) := by
    split_ifs at hc <;> omega
  have htb : 0 ≤ t ∧ t ≤ 3 ∧ 0 ≤ doy ∧ doy ≤ 365 ∧ r2 = 365 * t + doy ∧
      (doy = 365 → t = 3 ∧ r2 = 1460) := by
    split_ifs at ht <;> omega
  have hyoe4 : yoe / 4 = 25 * c + q := by omega
  have hyoe100 : yoe / 100 = c := by omega
  omega

theorem chainB (doy mp d m : ℤ) (h0 : 0 ≤ doy) (h1 : doy ≤ 365)
    (hmp : mp = (5 * doy + 2) / 153)
    (hd : d = doy - (153 * mp + 2) / 5 + 1)
    (hm : m = if mp < 10 then mp + 3 else mp - 9) :
    1 ≤ m ∧ m ≤ 12 ∧ 1 ≤ d ∧ d ≤ 31 ∧ (m ≤ 2 ↔ 10 ≤ mp) ∧ 0 ≤ mp ∧ mp ≤ 11 ∧
    (2 < m → (153 * (m - 3) + 2) / 5 + d - 1 = doy) ∧
    (m ≤ 2 → (153 * (m + 9) + 2) / 5 + d - 1 = doy) := by
  split_ifs at hm <;> omega

set_option maxHeartbeats 1000000 in
theorem daysFromCivil_civilFromDays (z : ℤ) :
    daysFromCivil (civilFromDays z).1 (civilFromDays z).2.1 (civilFromDays z).2.2 = z := by
  unfold civilFromDays daysFromCivil
  simp only
  set doe := (z + 719468) % 146097 with hdoe
  set era := (z + 719468) / 146097 with hera
  set c := if 4 ≤ doe / 36524 then 3 else doe / 36524 with hc
  set r := doe - 36524 * c with hr
  set q := r / 1461 with hq
  set r2 := r % 1461 with hr2
  set t := if 4 ≤ r2 / 365 then 3 else r2 / 365 with ht
  set doy := r2 - 365 * t with hdoy
  set yoe := 100 * c + 4 * q + t with hyoe
  set mp := (5 * doy + 2) / 153 with hmp
  set d := doy - (153 * mp + 2) / 5 + 1 with hd
  set m := if mp < 10 then mp + 3 else mp - 9 with hm
  have hA := chainA doe c r q r2 t doy yoe (by omega) (by omega) hc hr hq hr2 ht hdoy hyoe
  have hB := chainB doy mp d m hA.2.2.2.2.2.2.1 hA.2.2.2.2.2.2.2.1 hmp hd hm
  have hyoe4 : yoe / 4 = 25 * c + q := by omega
  have hyoe100 : yoe / 100 = c := by omega
  have hinv1 : (era * 400 + yoe) / 400 = era := by
    have := hA.2.2.2.2.2.2.2.2.1
    have := hA.2.2.2.2.2.2.2.2.2.1
    omega
  split_ifs <;>
  · try rw [show era * 400 + yoe + 1 - 1 = era * 400 + yoe from by ring]
    rw [hinv1]
    rw [show era * 400 + yoe - era * 400 = yoe from by ring]
    omega

set_option maxHeartbeats 2000000 in
theorem chainValid (z doe era c r q r2 t doy yoe mp d m y : ℤ)
    (hz1 : -354285 ≤ z) (hz2 : z ≤ 2932896)
    (hdoe : doe = (z + 719468) % 146097) (hera : era = (z + 719468) / 146097)
    (hc : c = if 4 ≤ doe / 36524 then 3 else doe / 36524)
    (hr : r = doe - 36524 * c)
    (hq : q = r / 1461) (hr2 : r2 = r % 1461)
    (ht : t = if 4 ≤ r2 / 365 then 3 else r2 / 365)
    (hdoy : doy = r2 - 365 * t) (hyoe : yoe = 100 * c + 4 * q + t)
    (hmp : mp = (5 * doy + 2) / 153)
    (hd : d = doy - (153 * mp + 2) / 5 + 1)
    (hm : m = if mp < 10 then mp + 3 else mp - 9)
    (hy : y = if m ≤ 2 then era * 400 + yoe + 1 else era * 400 + yoe) :
    1000 ≤ y ∧ y ≤ 9999 ∧ 1 ≤ m ∧ m ≤ 12 ∧ 1 ≤ d ∧ d ≤ daysInMonth y m := by
  have hA := chainA doe c r q r2 t doy yoe (by omega) (by omega) hc hr hq hr2 ht hdoy hyoe
  have hB := chainB doy mp d m hA.2.2.2.2.2.2.1 hA.2.2.2.2.2.2.2.1 hmp hd hm
  have hyoe4 : yoe / 4 = 25 * c + q := by omega
  have hyoe100 : yoe / 100 = c := by omega
  unfold daysInMonth
  split_ifs at hy ⊢ <;> omega

theorem civilFromDays_valid (z : ℤ) (hz1 : -354285 ≤ z) (hz2 : z ≤ 2932896) :
    1000 ≤ (civilFromDays z).1 ∧ (civilFromDays z).1 ≤ 9999 ∧
    1 ≤ (civilFromDays z).2.1 ∧ (civilFromDays z).2.1 ≤ 12 ∧
    1 ≤ (civilFromDays z).2.2 ∧
    (civilFromDays z).2.2 ≤ daysInMonth (civilFromDays z).1 (civilFromDays z).2.1 := by
  unfold civilFromDays
  simp only
  exact chainValid z _ _ _ _ _ _ _ _ _ _ _ _ _ hz1 hz2 rfl rfl rfl rfl rfl rfl rfl rfl
    rfl rfl rfl rfl rfl

theorem isoToEpochInt_renderIsoFields (y mo dy hh mi ss : ℤ)
    (hy : 1000 ≤ y ∧ y ≤ 9999) (hmo : 1 ≤ mo ∧ mo ≤ 12)
    (hdy : 1 ≤ dy ∧ dy ≤ daysInMonth y mo)
    (hhh : 0 ≤ hh ∧ hh ≤ 23) (hmi : 0 ≤ mi ∧ mi ≤ 59) (hss : 0 ≤ ss ∧ ss ≤ 59) :
    isoToEpochInt (renderIsoFields y mo dy hh mi ss) =
      some (daysFromCivil y mo dy * 86400 + hh * 3600 + mi * 60 + ss) := by
  unfold renderIsoFields renderYear pad2
  rw [if_neg (by omega), if_neg (by omega), if_neg (by omega)]
  simp only [List.cons_append, List.nil_append]
  unfold isoToEpochInt
  have hyrec : 1000 * (48 + y / 1000 - 48) + 100 * (48 + y / 100 % 10 - 48) +
      10 * (48 + y / 10 % 10 - 48) + (48 + y % 10 - 48) = y := by omega
  have hmorec : 10 * (48 + mo / 10 - 48) + (48 + mo % 10 - 48) = mo := by omega
  have hdyrec : 10 * (48 + dy / 10 - 48) + (48 + dy % 10 - 48) = dy := by omega
  have hhhrec : 10 * (48 + hh / 10 - 48) + (48 + hh % 10 - 48) = hh := by omega
  have hmirec : 10 * (48 + mi / 10 - 48) + (48 + mi % 10 - 48) = mi := by omega
  have hssrec : 10 * (48 + ss / 10 - 48) + (48 + ss % 10 - 48) = ss := by omega
  have hdm : daysInMonth y mo ≤ 31 := by
    unfold daysInMonth
    split_ifs <;> omega
  simp only
  rw [hyrec, hmorec, hdyrec, hhhrec, hmirec, hssrec]
  split_ifs with hcond1 hcond2
  · rfl
  · exact absurd ⟨by omega, by omega, by omega, by omega, hdy.2, by omega, by omega,
      by omega⟩ hcond2
  · exact absurd (by (repeat' apply And.intro) <;> first | trivial | omega) hcond1

theorem extractTimestamps_eq (items : List (Option (List ℤ))) :
    (extractTimestamps items).1 =
      (((items.filterMap id).filter (fun u => u ≠ [])).map lastSegment).filter
        (fun ts => ts ≠ [48]) := by
  induction items with
  | nil => rfl
  | cons item rest ih =>
    cases item with
    | none => simpa [extractTimestamps, List.filterMap_cons] using ih
    | some u =>
      simp only [extractTimestamps, List.filterMap_cons]
      by_cases hu : u = []
      · simp [hu, ih]
      · by_cases hts : lastSegment u = [48]
        · simp [hu, hts, ih]
        · simp [hu, hts, ih]

theorem not_slash_mem_extractTimestamps (items : List (Option (List ℤ))) :
    ∀ ts ∈ (extractTimestamps items).1, (47 : ℤ) ∉ ts := by
  induction items with
  | nil => intro ts h; cases h
  | cons item rest ih =>
    intro ts hts
    cases item with
    | none => exact ih ts hts
    | some u =>
      simp only [extractTimestamps] at hts
      by_cases hu : u = []
      · rw [if_pos hu] at hts
        exact ih ts hts
      · rw [if_neg hu] at hts
        by_cases hseg : lastSegment u = [48]
        · rw [if_pos hseg] at hts
          exact ih ts hts
        · rw [if_neg hseg] at hts
          rcases List.mem_cons.mp hts with rfl | hmem
          · exact not_sep_mem_lastSegment u
          · exact ih ts hmem

theorem mem_of_getLast?_eq {α : Type*} {l : List α} {a : α}
    (h : l.getLast? = some a) : a ∈ l := by
  rw [List.getLast?_eq_getElem?] at h
  exact List.getElem?_mem h

/-! ## Claim C1: the magnitude pipeline matches the reference pipeline -/

/-- Claim C1: for every non-empty decoded sample sequence, the magnitude part
of `compute_spectrum` produces exactly the magnitude array of the
specification's reference pipeline (`specReferencePipeline`). -/
theorem c1_spectrum_pipeline (samples : List ℤ) (factor : ℝ) (h : samples ≠ []) :
    compute_spectrum_magnitudes samples factor =
      some (specReferencePipeline samples factor) :=
  spectrum_pipeline_eq samples factor h

/-- Witness for C1 at the concrete input `[1]` with factor `1`. -/
theorem c1_spectrum_pipeline_witness :
    compute_spectrum_magnitudes [(1 : ℤ)] 1 =
      some (specReferencePipeline [(1 : ℤ)] 1) :=
  c1_spectrum_pipeline [(1 : ℤ)] 1 (by simp)

/-! ## Claim C2: zero-padding length and content -/

/-- Claim C2: for every input waveform of length `n ≥ 1`, `zero_padding`
produces an output whose length is the smallest power of two `≥ n` (it is a
power of two, is `≥ n`, and is `≤` every power of two `≥ n`), whose first `n`
elements equal the input and whose remaining elements are zero; when `n` is
already a power of two the output equals the input. -/
theorem c2_zero_padding_spec (xs : List ℝ) (h : xs ≠ []) :
    ∃ ys, zero_padding xs = some ys ∧
      (∃ k, ys.length = 2 ^ k) ∧
      xs.length ≤ ys.length ∧
      (∀ m, xs.length ≤ 2 ^ m → ys.length ≤ 2 ^ m) ∧
      ys.take xs.length = xs ∧
      ys.drop xs.length = List.replicate (ys.length - xs.length) 0 ∧
      ((∃ k, xs.length = 2 ^ k) → ys = xs) := by
  have hn : xs.length ≠ 0 := by simpa using h
  have hle : xs.length ≤ 2 ^ Nat.clog 2 xs.length := Nat.le_pow_clog (by norm_num) _
  refine ⟨xs ++ List.replicate (2 ^ Nat.clog 2 xs.length - xs.length) 0,
    by simp [zero_padding, hn], ?_, ?_, ?_, ?_, ?_, ?_⟩
  · refine ⟨Nat.clog 2 xs.length, ?_⟩
    simp [List.length_append, List.length_replicate, Nat.add_sub_cancel' hle]
  · simp
  · intro m hm
    have : Nat.clog 2 xs.length ≤ m := (Nat.le_pow_iff_clog_le (by norm_num)).mp hm
    have h2 : 2 ^ Nat.clog 2 xs.length ≤ 2 ^ m := Nat.pow_le_pow_right (by norm_num) this
    simpa [List.length_append, List.length_replicate, Nat.add_sub_cancel' hle] using h2
  · exact List.take_left xs _
  · rw [List.drop_left]
    congr 1
    simp [List.length_append, List.length_replicate, Nat.add_sub_cancel' hle]
  · rintro ⟨k, hk⟩
    have : 2 ^ Nat.clog 2 xs.length = xs.length := by
      rw [hk, Nat.clog_pow 2 k (by norm_num)]
    simp [this]

/-- Witness for C2 at the concrete input `[1]`. -/
theorem c2_zero_padding_spec_witness :
    ∃ ys, zero_padding [(1 : ℝ)] = some ys ∧
      (∃ k, ys.length = 2 ^ k) ∧
      ([(1 : ℝ)].length ≤ ys.length) ∧
      (∀ m, [(1 : ℝ)].length ≤ 2 ^ m → ys.length ≤ 2 ^ m) ∧
      ys.take [(1 : ℝ)].length = [(1 : ℝ)] ∧
      ys.drop [(1 : ℝ)].length = List.replicate (ys.length - [(1 : ℝ)].length) 0 ∧
      ((∃ k, [(1 : ℝ)].length = 2 ^ k) → ys = [(1 : ℝ)]) :=
  c2_zero_padding_spec [(1 : ℝ)] (by simp)

/-! ## Claim C3: frequency axis and band filter -/

/-- Counterexample for C3: for the band `[-2, 1]` (whose lower bound is
negative) with three samples (padded length 4) and sample rate 4, the emitted
frequencies are `[0, 1, -2, -1]`, which is not strictly ascending: the
wrapped negative bins of the FFT frequency layout come after the positive
ones. -/
theorem c3_counterexample :
    (compute_spectrum_pairs [(1 : ℤ), 1, 1] 1 4 (-2) 1).map (List.map Prod.fst) =
      some [(0 : ℚ), 1, -2, -1] ∧
    ¬ (([(0 : ℚ), 1, -2, -1]).Pairwise (· < ·)) := by
  have hclog : Nat.clog 2 3 = 2 := by
    have h1 : Nat.clog 2 3 ≤ 2 := (Nat.le_pow_iff_clog_le (by norm_num)).mp (by norm_num)
    have h2 : 1 < Nat.clog 2 3 := (Nat.pow_lt_iff_lt_clog (by norm_num)).mp (by norm_num)
    omega
  constructor
  · have hmag := spectrum_pipeline_eq [(1 : ℤ), 1, 1] 1 (by simp)
    have hlen : (specReferencePipeline [(1 : ℤ), 1, 1] 1).length = 4 := by
      rw [specReferencePipeline_length]
      norm_num [hclog]
    have hfreq : fftfreq 4 4 = [0, 1, -2, -1] := by
      unfold fftfreq
      norm_num [List.range_succ]
    unfold compute_spectrum_pairs
    rw [hmag]
    simp only [Option.map_some']
    rw [hlen, map_fst_filter_zip _ _ _ (by rw [fftfreq_length, hlen]), hfreq]
    norm_num [List.filter, inBand]
  · intro hp
    have := List.rel_of_pairwise_cons hp (by norm_num : (-2 : ℚ) ∈ [(1 : ℚ), -2, -1])
    norm_num at this

/-- Claim C3 (amended): for every non-empty sample sequence, every positive
sample rate and every band `[fmin, fmax]` with `0 ≤ fmin`, the
(frequency, magnitude) pairs emitted by `compute_spectrum` satisfy: every
emitted frequency `f` obeys `fmin ≤ f ≤ fmax`; the number of emitted pairs
equals the number of frequency bins falling inside the band; and the emitted
frequencies are strictly ascending.  (When `fmin < 0`, the wrapped negative
bins break the ascending order: see `c3_counterexample`.) -/
theorem c3_band_filter (samples : List ℤ) (factor : ℝ) (fs fmin fmax : ℚ)
    (h : samples ≠ []) (hfs : 0 < fs) (hmin : 0 ≤ fmin) :
    ∃ pairs, compute_spectrum_pairs samples factor fs fmin fmax = some pairs ∧
      (∀ p ∈ pairs, fmin ≤ p.1 ∧ p.1 ≤ fmax) ∧
      pairs.length = ((fftfreq (2 ^ Nat.clog 2 samples.length) fs).filter
        (inBand fmin fmax)).length ∧
      (pairs.map Prod.fst).Pairwise (· < ·) := by
  have hmag := spectrum_pipeline_eq samples factor h
  have hlen := specReferencePipeline_length samples factor
  unfold compute_spectrum_pairs
  rw [hmag]
  refine ⟨_, rfl, ?_, ?_, ?_⟩
  · intro p hp
    have := List.of_mem_filter hp
    simpa [inBand] using this
  · rw [← List.length_map _ Prod.fst,
      map_fst_filter_zip _ _ _ (by rw [fftfreq_length, hlen]), hlen]
  · rw [map_fst_filter_zip _ _ _ (by rw [fftfreq_length, hlen]), hlen]
    exact fftfreq_filter_pairwise _ fs fmin fmax (Nat.pos_pow_of_pos _ (by norm_num))
      hfs hmin

/-- Witness for C3 (amended) at samples `[1]`, `fs = 1`, band `[0, 1]`. -/
theorem c3_band_filter_witness :
    ∃ pairs, compute_spectrum_pairs [(1 : ℤ)] 1 1 0 1 = some pairs ∧
      (∀ p ∈ pairs, 0 ≤ p.1 ∧ p.1 ≤ 1) ∧
      pairs.length = ((fftfreq (2 ^ Nat.clog 2 [(1 : ℤ)].length) 1).filter
        (inBand 0 1)).length ∧
      (pairs.map Prod.fst).Pairwise (· < ·) :=
  c3_band_filter [(1 : ℤ)] 1 1 0 1 (by simp) (by norm_num) le_rfl

/-! ## Claim C4: epoch ↔ ISO round trip -/

/-- Counterexample for C4: at epoch `253402300800` (the first second of year
10000), `datetime.fromtimestamp` raises, `epoch_to_iso` catches the error and
returns the empty string, and parsing the empty string fails, so the round
trip does not return the original epoch. -/
theorem c4_counterexample :
    epochToIsoOfInt 253402300800 = [] ∧
    isoToEpochInt (epochToIsoOfInt 253402300800) ≠ some 253402300800 := by
  have h : epochToIsoOfInt 253402300800 = [] := by
    unfold epochToIsoOfInt
    rw [if_pos (by omega)]
  refine ⟨h, ?_⟩
  rw [h]
  intro hco
  cases hco

/-- Claim C4 (amended): for every epoch integer `e` whose UTC calendar year is
between 1000 and 9999 (i.e. `-30610224000 ≤ e ≤ 253402300799`), converting
`e` to an ISO-8601 string (`epoch_to_iso`, UTC, `YYYY-MM-DDTHH:MM:SS`, no
timezone suffix) and parsing the result back (`iso_to_epoch`) yields `e`
again.  Outside the `datetime`-representable years `epoch_to_iso` returns the
empty string (see `c4_counterexample`); years below 1000 render with fewer
than four digits on the modelled platform and fail to re-parse. -/
theorem c4_epoch_iso_roundtrip (e : ℤ) (h1 : -30610224000 ≤ e)
    (h2 : e ≤ 253402300799) :
    isoToEpochInt (epochToIsoOfInt e) = some e := by
  have hz1 : -354285 ≤ e / 86400 := by omega
  have hz2 : e / 86400 ≤ 2932896 := by omega
  have hv := civilFromDays_valid (e / 86400) hz1 hz2
  unfold epochToIsoOfInt
  rw [if_neg (by omega)]
  simp only
  rw [isoToEpochInt_renderIsoFields _ _ _ _ _ _ ⟨hv.1, hv.2.1⟩ ⟨hv.2.2.1, hv.2.2.2.1⟩
    ⟨hv.2.2.2.2.1, hv.2.2.2.2.2⟩ ⟨by omega, by omega⟩ ⟨by omega, by omega⟩
    ⟨by omega, by omega⟩]
  have hrt := daysFromCivil_civilFromDays (e / 86400)
  congr 1
  omega

/-- Witness for C4 (amended) at `e = 0` (1970-01-01T00:00:00). -/
theorem c4_epoch_iso_roundtrip_witness :
    isoToEpochInt (epochToIsoOfInt 0) = some 0 :=
  c4_epoch_iso_roundtrip 0 (by norm_num) (by norm_num)

/-! ## Claim C5: sentinel fetch and label re-derivation -/

/-- Claim C5: when the timestamp specifier resolves to the sentinel `"0"`
("latest") and the fetch succeeds, the fetch is issued using the sentinel
itself, and the reported timestamp label is the last entry of the
non-sentinel timestamp sequence obtained by a second listing call. -/
theorem c5_latest_resolution (spec : Option (List ℤ)) (fetchStatus : List ℤ → ℕ)
    (listStatus : ℕ) (items : List (Option (List ℤ))) (t : List ℤ)
    (h0 : resolveTimestamp spec = [48]) (hf : fetchStatus [48] = 200)
    (hl : (list_waves listStatus items).1.getLast? = some t) :
    getWave spec fetchStatus listStatus items = .ok [48] t := by
  have hmem : t ∈ (list_waves listStatus items).1 := mem_of_getLast?_eq hl
  have hnoslash : (47 : ℤ) ∉ t := by
    unfold list_waves at hmem
    split_ifs at hmem with h
    · cases hmem
    · exact not_slash_mem_extractTimestamps items t hmem
  unfold getWave
  rw [h0]
  rw [if_neg (by simp [hf])]
  rw [if_pos rfl, hl]
  simp only
  rw [lastSegment_of_not_mem t hnoslash]

/-- Witness for C5: no specifier, fetch always 200, listing with the single
item `"a/5"`. -/
theorem c5_latest_resolution_witness :
    getWave none (fun _ => 200) 200 [some [97, 47, 53]] =
      FetchOutcome.ok [48] [53] :=
  c5_latest_resolution none (fun _ => 200) 200 [some [97, 47, 53]] [53]
    (by decide) rfl (by decide)

/-! ## Claim C6: the sentinel never appears in listings -/

/-- Claim C6: for every listing response, the returned timestamp sequence
never contains the sentinel `"0"` — even when an item's URL ends in `/0` —
and, on a successful (200) response, the sequence consists exactly of the
last path segments of the items' non-empty self URLs, in the service's
original order, with the sentinel excluded. -/
theorem c6_no_sentinel (status : ℕ) (items : List (Option (List ℤ))) :
    [48] ∉ (list_waves status items).1 ∧
    (status = 200 → (list_waves status items).1 =
      (((items.filterMap id).filter (fun u => u ≠ [])).map lastSegment).filter
        (fun ts => ts ≠ [48])) := by
  constructor
  · unfold list_waves
    split_ifs with h
    · simp
    · rw [extractTimestamps_eq]
      intro hmem
      have := List.of_mem_filter hmem
      simp at this
  · intro h200
    unfold list_waves
    rw [if_neg (by simp [h200])]
    exact extractTimestamps_eq items

/-- Witness for C6 at a concrete listing whose items are `"x/0"` (sentinel),
`"x/7"`, and a URL-less item. -/
theorem c6_no_sentinel_witness :
    [48] ∉ (list_waves 200 [some [120, 47, 48], some [120, 47, 55], none]).1 ∧
    (list_waves 200 [some [120, 47, 48], some [120, 47, 55], none]).1 =
      ((([some [120, 47, 48], some [120, 47, 55],
          none].filterMap id).filter (fun u => u ≠ [])).map lastSegment).filter
        (fun ts => ts ≠ [48]) :=
  ⟨(c6_no_sentinel 200 _).1, (c6_no_sentinel 200 _).2 rfl⟩

/-! ## Claim C7: timestamp-specifier resolution -/

/-- Counterexample for C7: the claim says any specifier other than null that
contains no `-`/`T` is used verbatim, but the empty-string specifier is falsy
in Python (`if not timestamp:`) and resolves to the sentinel `"0"` instead of
being used verbatim. -/
theorem c7_counterexample :
    resolveTimestamp (some []) = [48] ∧ ([48] : List ℤ) ≠ ([] : List ℤ) := by
  constructor
  · decide
  · decide

/-- Claim C7 (amended): timestamp-specifier resolution behaves by case: a
null/absent — or empty — specifier resolves to the sentinel `"0"`; a
specifier containing `-` or `T` is treated as ISO-8601 and converted via
`iso_to_epoch`; any other specifier is used verbatim
(`resolveSpecDescription` states exactly these cases). -/
theorem c7_resolve_specifier (spec : Option (List ℤ)) :
    resolveTimestamp spec = resolveSpecDescription spec := by
  cases spec with
  | none => decide
  | some s =>
    by_cases hs : s = []
    · subst hs
      decide
    · simp only [resolveTimestamp, resolveSpecDescription, if_neg hs]

/-! ## Claim C8: all-zero and empty input signals -/

/-- Counterexample for C8: the empty decoded signal does not run through the
whole pipeline; `zero_padding` fails on it (numpy raises on
`2 ** np.ceil(np.log2 0).astype(int)`), so `compute_spectrum` fails instead of
returning zero magnitudes. -/
theorem c8_counterexample :
    compute_spectrum_magnitudes [] 1 = none := by
  simp [compute_spectrum_magnitudes, preprocess_waveform, zero_padding,
    signal_proc, scaled_signal]

/-- Claim C8 (amended): for an all-zero decoded input signal of any *positive*
length, the spectrum computation proceeds through the whole pipeline
(windowing, padding, FFT) and terminates normally with zero magnitudes; the
empty signal instead makes `zero_padding` fail (see `c8_counterexample`). -/
theorem c8_all_zero_signal (n : ℕ) (factor : ℝ) (h : 1 ≤ n) :
    compute_spectrum_magnitudes (List.replicate n 0) factor =
      some (List.replicate (2 ^ Nat.clog 2 n) 0) := by
  have hscaled : scaled_signal (List.replicate n 0) factor = List.replicate n 0 := by
    unfold scaled_signal
    rw [List.map_replicate, List.map_replicate]
    norm_num
  have hproc : signal_proc (List.replicate n 0) factor = List.replicate n 0 := by
    unfold signal_proc
    rw [hscaled, List.map_replicate]
    have hm : mean (List.replicate n (0:ℝ)) = 0 := by simp [mean]
    rw [hm]
    norm_num
  have hwin : (List.range n).map
      (fun k => (List.replicate n (0:ℝ)).getD k 0 * hann n k) = List.replicate n 0 := by
    rw [show (fun k => (List.replicate n (0:ℝ)).getD k 0 * hann n k) =
        (fun _ => (0:ℝ)) from ?_, List.map_const', List.length_range]
    funext k
    rw [getD_replicate]
    rcases lt_or_le k n with hk | hk
    · simp [hk]
    · simp [Nat.not_lt.mpr hk]
  have hpre : preprocess_waveform (List.replicate n 0) =
      some (List.replicate (2 ^ Nat.clog 2 n) 0) := by
    unfold preprocess_waveform
    simp only [List.length_replicate, hwin]
    unfold zero_padding
    rw [if_neg (by simp; omega)]
    simp only [List.length_replicate]
    rw [← List.replicate_add]
    congr 2
    have := Nat.le_pow_clog (b := 2) (by norm_num) n
    omega
  have hspec : scaled_spectrum (List.replicate (2 ^ Nat.clog 2 n) 0) =
      List.replicate (2 ^ Nat.clog 2 n) 0 := by
    simp [scaled_spectrum, List.map_replicate, dft_replicate_zero]
  unfold compute_spectrum_magnitudes
  rw [hproc, hpre]
  simp [hspec, List.map_replicate]

/-- Witness for C8 (amended) at `n = 1`. -/
theorem c8_all_zero_signal_witness :
    compute_spectrum_magnitudes (List.replicate 1 0) 1 =
      some (List.replicate (2 ^ Nat.clog 2 1) 0) :=
  c8_all_zero_signal 1 1 (by decide)

/-! ## Claim C9: odd-length buffers fail to decode -/

/-- Claim C9: a decompressed byte buffer whose length is not a multiple of the
2-byte sample width makes the decode step feeding `compute_spectrum` fail (the
`CodecError` of the specification, a raised `ValueError` in numpy), so the
whole computation fails; a buffer of even length decodes to exactly
`length / 2` samples, never a silently wrong-length array. -/
theorem c9_odd_buffer_fails (raw : List ℕ) (factor : ℝ) :
    (raw.length % 2 ≠ 0 →
      frombufferInt16 raw = none ∧ compute_spectrum_from_raw raw factor = none) ∧
    (∀ samples, frombufferInt16 raw = some samples →
      samples.length = raw.length / 2) := by
  constructor
  · intro hodd
    have h1 : frombufferInt16 raw = none := by simp [frombufferInt16, hodd]
    exact ⟨h1, by simp [compute_spectrum_from_raw, h1]⟩
  · intro samples hs
    unfold frombufferInt16 at hs
    by_cases he : raw.length % 2 = 0
    · rw [if_pos he] at hs
      cases hs
      exact int16OfBytes_length raw
    · rw [if_neg he] at hs
      cases hs

/-- Witness for C9 at the one-byte buffer `[7]`. -/
theorem c9_odd_buffer_fails_witness :
    frombufferInt16 [7] = none ∧ compute_spectrum_from_raw [7] 1 = none :=
  (c9_odd_buffer_fails [7] 1).1 (by decide)

/-! ## Claim C10: sentinel fetch with empty re-listing raises -/

/-- Claim C10: when the specifier resolves to the sentinel `"0"`, the fetch
succeeds, but the second listing call returns a non-success status (and
therefore an empty timestamp sequence), `get_wave`/`get_spectrum` raises an
uncaught `IndexError` at `urls[-1]` instead of returning the downloaded
record. -/
theorem c10_latest_empty_listing (spec : Option (List ℤ))
    (fetchStatus : List ℤ → ℕ) (listStatus : ℕ) (items : List (Option (List ℤ)))
    (h0 : resolveTimestamp spec = [48]) (hf : fetchStatus [48] = 200)
    (hl : listStatus ≠ 200) :
    getWave spec fetchStatus listStatus items = .indexError := by
  unfold getWave
  rw [h0]
  rw [if_neg (by simp [hf])]
  rw [if_pos rfl]
  unfold list_waves
  rw [if_pos hl]
  rfl

/-- Witness for C10: no specifier, fetch always 200, listing endpoint
answering 500. -/
theorem c10_latest_empty_listing_witness :
    getWave none (fun _ => 200) 500 [] = FetchOutcome.indexError :=
  c10_latest_empty_listing none (fun _ => 200) 500 [] (by decide) rfl
    (by decide)

end T8Client
